import Mathlib

/-!
Verification development for the NHL score-predictor core: the schedule
analyser, goalie-availability check, prediction-resolution pipeline and
probability adjuster of the games API route and the frontend calculation
library.

Modelling conventions:
* JS strings are modelled as `List Char` (`Str`), so substring search,
  lowercasing, splitting and trimming are ordinary list operations.
* Calendar dates are modelled at day granularity as integers (one unit =
  one day); the route compares ISO `YYYY-MM-DD` strings after day-level
  `Date` arithmetic, which this models exactly.
* JS numbers are modelled as rationals; `Math.round` is `round : ℚ → ℤ`
  (both equal `⌊x + 1/2⌋`).
* JS `Map`/object lookups are association-list lookups keyed by first
  occurrence, preserving insertion order, as JS `Map` does.
-/

namespace NHL

/-- Strings are modelled as lists of characters. -/
abbrev Str := List Char

/-- Embed a Lean string literal into the character-list model. -/
def str (s : String) : Str := s.data

/-- Association-list lookup, modelling a JS object / `Map` lookup
(`table[key]`, `map.get(key)`): first binding for the key wins. -/
def lookupTable {α : Type} (table : List (Str × α)) (key : Str) : Option α :=
  (table.find? (fun p => p.1 == key)).map (fun p => p.2)

/-- One row of the scraped per-team game log (`nhl_games_2021_2026.json`):
fields `team`, `date`, `opponent`, `game_location` (`"@"` when the row's
team is away) and the truthiness of the `result` field (`true` iff the
game has already been played). -/
structure LogEntry where
  team : Str
  date : Int
  opponent : Str
  game_location : Str
  result : Bool
  deriving DecidableEq, Repr

/-- `GoalieType` from `frontend/types/game.ts`. -/
inductive GoalieType
  | starter
  | backup
  | thirdString
  deriving DecidableEq, Repr

/-- `RestStatus` from `frontend/types/game.ts`. -/
inductive RestStatus
  | fresh
  | backToBack
  | threeInFour
  | fourInSix
  deriving DecidableEq, Repr

/-- `InjuredPlayer` from `frontend/types/game.ts`. -/
structure InjuredPlayer where
  player : Str
  status : Str
  timeline : Str
  reason : Str
  deriving DecidableEq, Repr

/-- `Game` from `frontend/types/game.ts`.  The optional injured-player
lists are `Option` values (`undefined` = `none`). -/
structure Game where
  id : Str
  homeTeam : Str
  awayTeam : Str
  date : Int
  time : Str
  homeGoalie : GoalieType
  awayGoalie : GoalieType
  isHomeBackToBack : Bool
  isAwayBackToBack : Bool
  homeRestDays : RestStatus
  awayRestDays : RestStatus
  homeInjuries : Nat
  awayInjuries : Nat
  homeInjuredPlayers : Option (List InjuredPlayer)
  awayInjuredPlayers : Option (List InjuredPlayer)
  baseWinProb : Rat
  currentWinProb : Rat
  deriving DecidableEq, Repr

/-! ## ProbabilityAdjuster (`frontend/lib/calculations.ts`) -/

/-- Goalie-tier deltas, `calculations.ts` lines 11-15. -/
def goalieAdjustments : GoalieType → Rat
  | .starter => 0
  | .backup => -8
  | .thirdString => -15

/-- Rest-tier deltas, `calculations.ts` lines 21-26. -/
def restAdjustments : RestStatus → Rat
  | .fresh => 0
  | .backToBack => -5
  | .threeInFour => -8
  | .fourInSix => -12

/-- `calculateWinProb` from `frontend/lib/calculations.ts` lines 7-43:
base probability plus goalie, rest, injury (3 per player) and extra
back-to-back (±2) deltas, clamped to `[5, 95]` and rounded.  The result
type `ℤ` reflects that `Math.round` returns an integer-valued number. -/
def calculateWinProb (game : Game) : Int :=
  let prob := game.baseWinProb
    + goalieAdjustments game.homeGoalie - goalieAdjustments game.awayGoalie
    + restAdjustments game.homeRestDays - restAdjustments game.awayRestDays
    - (game.homeInjuries : Rat) * 3 + (game.awayInjuries : Rat) * 3
    + (if game.isHomeBackToBack then -2 else 0)
    + (if game.isAwayBackToBack then 2 else 0)
  round (max 5 (min 95 prob))

/-! ## ScheduleAnalyzer (games route, `isBackToBack` / `calculateRestDays`) -/

/-- `isBackToBack` from the games route (part_002 lines 112-123): the log
holds a row for `team` dated exactly one day before `gameDate` whose
`result` field is truthy (a played game). -/
def isBackToBack (data : List LogEntry) (team : Str) (gameDate : Int) : Bool :=
  data.any fun g => g.team == team && g.date == gameDate - 1 && g.result

/-- `calculateRestDays` from the games route (part_002 lines 126-154):
count played games for `team` in the window `[gameDate - 6, gameDate)`;
back-to-back takes precedence, then `count ≥ 4`, then `count ≥ 3`. -/
def calculateRestDays (data : List LogEntry) (team : Str) (gameDate : Int) :
    RestStatus :=
  let recentGames := data.filter fun g =>
    g.team == team && g.result &&
      decide (gameDate - 6 ≤ g.date) && decide (g.date < gameDate)
  let gameCount := recentGames.length
  if isBackToBack data team gameDate then .backToBack
  else if gameCount ≥ 4 then .fourInSix
  else if gameCount ≥ 3 then .threeInFour
  else .fresh

/-! ## AvailabilityResolver (games route, goalie-injury matching) -/

/-- JS `String.prototype.toLowerCase` on the character-list model. -/
def toLower (cs : Str) : Str := cs.map Char.toLower

/-- Whitespace characters stripped by JS `String.prototype.trim`. -/
def isWs (c : Char) : Bool := c == ' ' || c == '\t' || c == '\n' || c == '\r'

/-- JS `String.prototype.trim`: strip whitespace from both ends. -/
def trimStr (cs : Str) : Str :=
  ((cs.dropWhile isWs).reverse.dropWhile isWs).reverse

/-- JS `big.includes(small)`: `small` occurs as a contiguous substring. -/
def containsSub (big small : Str) : Bool :=
  big.tails.any fun t => small.isPrefixOf t

/-- JS `s.split(',')[0]`: the characters before the first comma (the whole
string when there is no comma). -/
def takeBeforeComma (cs : Str) : Str := cs.takeWhile fun c => !(c == ',')

/-- `STARTING_GOALIES` from the games route (part_002 lines 46-80): team
abbreviation to goalie last names, first entry the designated starter. -/
def STARTING_GOALIES : List (Str × List Str) := [
  (str "ANA", [str "gibson", str "dostal"]),
  (str "ARI", [str "vejmelka", str "ingersoll"]),
  (str "BOS", [str "swayman", str "ullmark"]),
  (str "BUF", [str "luukkonen", str "levi"]),
  (str "CGY", [str "markstrom", str "wolf"]),
  (str "CAR", [str "kotchetkov", str "andersen"]),
  (str "CHI", [str "mrazek", str "soderblom"]),
  (str "COL", [str "georgiev", str "annunen"]),
  (str "CBJ", [str "tarasov", str "merzlikins"]),
  (str "DAL", [str "ottinger", str "wedgewood"]),
  (str "DET", [str "lyon", str "husso"]),
  (str "EDM", [str "skinner", str "pickard"]),
  (str "FLA", [str "bobrovsky", str "stolarz"]),
  (str "LAK", [str "talbot", str "rittich"]),
  (str "MIN", [str "gustavsson", str "fleury"]),
  (str "MTL", [str "montembeault", str "primeau"]),
  (str "NSH", [str "saros", str "lankinen"]),
  (str "NJD", [str "allen", str "daws"]),
  (str "NYI", [str "sorokin", str "varlamov"]),
  (str "NYR", [str "shesterkin", str "quick"]),
  (str "OTT", [str "korpisalo", str "forsberg"]),
  (str "PHI", [str "eriksson", str "fedotov"]),
  (str "PIT", [str "jarry", str "nedeljkovic"]),
  (str "SJS", [str "blackwood", str "kahkonen"]),
  (str "SEA", [str "daccord", str "grubauer"]),
  (str "STL", [str "binnington", str "hofer"]),
  (str "TBL", [str "vasilevskiy", str "johansson"]),
  (str "TOR", [str "woll", str "samsonov"]),
  (str "UTA", [str "vejmelka", str "ingersoll"]),
  (str "VAN", [str "demko", str "silovs"]),
  (str "VEG", [str "hill", str "thompson"]),
  (str "WSH", [str "lindgren", str "kuemper"]),
  (str "WPG", [str "hellebuyck", str "comrie"])]

/-- `isStartingGoalieInjured` from the games route (part_002 lines 96-109),
generalised over the roster table it reads (`STARTING_GOALIES` in the
source): false when no injuries or no roster entry; otherwise some injured
player's lowercased name contains the lowercased starter name, or the
starter name contains the injured name truncated at its first comma,
trimmed and lowercased (`playerName.split(',')[0].trim().toLowerCase()`). -/
def isStartingGoalieInjuredWith (roster : List (Str × List Str))
    (injuredPlayers : List InjuredPlayer) (team : Str) : Bool :=
  if injuredPlayers.isEmpty then false
  else
    match (lookupTable roster team).getD [] with
    | [] => false
    | starter :: _ =>
      let starterName := toLower starter
      injuredPlayers.any fun injured =>
        let playerName := toLower injured.player
        containsSub playerName starterName ||
          containsSub starterName (toLower (trimStr (takeBeforeComma playerName)))

/-- `isStartingGoalieInjured` as the source invokes it, against the
hard-coded `STARTING_GOALIES` table. -/
def isStartingGoalieInjured (injuredPlayers : List InjuredPlayer) (team : Str) :
    Bool :=
  isStartingGoalieInjuredWith STARTING_GOALIES injuredPlayers team

/-- The matching rule as the specification states it (claim C9): substring
containment of the *whole* lowercased names, in both directions, with no
comma truncation.  Kept separate so it can be compared with the source's
`isStartingGoalieInjuredWith`. -/
def specStarterUnavailable (roster : List (Str × List Str))
    (injuredPlayers : List InjuredPlayer) (team : Str) : Bool :=
  if injuredPlayers.isEmpty then false
  else
    match (lookupTable roster team).getD [] with
    | [] => false
    | starter :: _ =>
      let starterName := toLower starter
      injuredPlayers.any fun injured =>
        let playerName := toLower injured.player
        containsSub playerName starterName || containsSub starterName playerName

/-! ## Matchup derivation (`convertToGameFormat` and the all-teams branch) -/

/-- Decimal rendering of an integer, as JS string interpolation does. -/
def intStr (i : Int) : Str := (toString i).data

/-- The deduplication key `date-awayTeam-homeTeam` built by the all-teams
branch of the games route (part_002 line 431). -/
def gameKey (g : Game) : Str :=
  intStr g.date ++ str "-" ++ g.awayTeam ++ str "-" ++ g.homeTeam

/-- `convertToGameFormat` from the games route (part_002 lines 157-262):
for each log row of `team` with an opponent, no result yet and a date
strictly after `today`, emit a `Game` with schedule-derived rest features,
injury data and goalie tiers (starter demoted to backup when the starting
goalie is injured).  `today` stands for `new Date()` at day granularity;
base probability defaults to 50 pending batch prediction. -/
def convertToGameFormat (data : List LogEntry) (team : Str)
    (injuryCounts : List (Str × Nat))
    (detailedInjuries : List (Str × List InjuredPlayer))
    (today : Int) : List Game :=
  data.filterMap fun game =>
    if game.team ≠ team then none
    else if game.opponent.isEmpty then none
    else if game.result then none
    else if game.date ≤ today then none
    else
      let isHome := !(game.game_location == str "@")
      let homeTeam := if isHome then team else game.opponent
      let awayTeam := if isHome then game.opponent else team
      let homeB2B := isBackToBack data homeTeam game.date
      let awayB2B := isBackToBack data awayTeam game.date
      let homeRestDays := calculateRestDays data homeTeam game.date
      let awayRestDays := calculateRestDays data awayTeam game.date
      let homeInjuries := (lookupTable injuryCounts homeTeam).getD 0
      let awayInjuries := (lookupTable injuryCounts awayTeam).getD 0
      let homeInjuredPlayers := (lookupTable detailedInjuries homeTeam).getD []
      let awayInjuredPlayers := (lookupTable detailedInjuries awayTeam).getD []
      let homeGoalie : GoalieType :=
        if isStartingGoalieInjured homeInjuredPlayers homeTeam then .backup
        else .starter
      let awayGoalie : GoalieType :=
        if isStartingGoalieInjured awayInjuredPlayers awayTeam then .backup
        else .starter
      some {
        id := str "game-" ++ intStr game.date ++ str "-" ++ awayTeam
          ++ str "-" ++ homeTeam
        homeTeam := homeTeam
        awayTeam := awayTeam
        date := game.date
        time := str "19:00"
        homeGoalie := homeGoalie
        awayGoalie := awayGoalie
        isHomeBackToBack := homeB2B
        isAwayBackToBack := awayB2B
        homeRestDays := homeRestDays
        awayRestDays := awayRestDays
        homeInjuries := homeInjuries
        awayInjuries := awayInjuries
        homeInjuredPlayers :=
          if homeInjuredPlayers.isEmpty then
            if 0 < homeInjuries then some [] else none
          else some homeInjuredPlayers
        awayInjuredPlayers :=
          if awayInjuredPlayers.isEmpty then
            if 0 < awayInjuries then some [] else none
          else some awayInjuredPlayers
        baseWinProb := 50
        currentWinProb := 50 }

/-- The distinct team names of the log in first-occurrence order: the
iteration order of the JS `Set` built at part_002 lines 424-425. -/
def collectTeams (data : List LogEntry) : List Str :=
  data.foldl (fun acc g => if acc.contains g.team then acc else acc ++ [g.team]) []

/-- One step of the `gameMap` deduplication (part_002 lines 430-435): insert
under `gameKey` only when the key is not yet present. -/
def insertGame (m : List (Str × Game)) (g : Game) : List (Str × Game) :=
  if (lookupTable m (gameKey g)).isSome then m else m ++ [(gameKey g, g)]

/-- The all-teams branch of the games route (part_002 lines 420-439):
convert every team's log rows and deduplicate mirrored fixtures through the
key map, returning the map's values in insertion order. -/
def deriveAllGames (data : List LogEntry) (injuryCounts : List (Str × Nat))
    (detailedInjuries : List (Str × List InjuredPlayer))
    (today : Int) : List Game :=
  let teams := collectTeams data
  let m := teams.foldl
    (fun m t =>
      (convertToGameFormat data t injuryCounts detailedInjuries today).foldl
        insertGame m)
    []
  m.map fun p => p.2

/-! ## JSON recovery and the batch-prediction phase -/

/-- JSON values.  String payloads keep their escape sequences verbatim
(consistently on both sides of every comparison made here). -/
inductive Json
  | null
  | bool (b : Bool)
  | num (q : Rat)
  | str (s : Str)
  | arr (elems : List Json)
  | obj (fields : List (Str × Json))
  deriving Repr

/-- Body of a JSON string after the opening quote: consume characters up
to the closing quote, an escape consuming the following character. -/
def parseStringBody : Str → Option (Str × Str)
  | [] => none
  | '"' :: rest => some ([], rest)
  | '\\' :: c :: rest =>
    match parseStringBody rest with
    | some (s, r) => some ('\\' :: c :: s, r)
    | none => none
  | c :: rest =>
    match parseStringBody rest with
    | some (s, r) => some (c :: s, r)
    | none => none

/-- Numeric value of a decimal digit character. -/
def digitVal (c : Char) : Nat := c.toNat - '0'.toNat

/-- Split a leading run of decimal digits off the input. -/
def takeDigits (cs : Str) : Str × Str :=
  (cs.takeWhile (fun c => c.isDigit), cs.dropWhile (fun c => c.isDigit))

/-- Value of a run of decimal digits. -/
def digitsToNat (ds : Str) : Nat := ds.foldl (fun n c => 10 * n + digitVal c) 0

/-- Exponent suffix of a JSON number applied to the mantissa `v`. -/
def parseExp (v : Rat) (cs : Str) : Option (Rat × Str) :=
  let (eneg, cs₁) :=
    match cs with
    | '-' :: r => (true, r)
    | '+' :: r => (false, r)
    | _ => (false, cs)
  let (ed, cs₂) := takeDigits cs₁
  if ed.isEmpty then none
  else
    let e : Int :=
      if eneg then -(digitsToNat ed : Int) else (digitsToNat ed : Int)
    some (v * (10 : Rat) ^ e, cs₂)

/-- A JSON number: optional sign, integer digits, optional fraction,
optional exponent. -/
def parseNumber (cs : Str) : Option (Rat × Str) :=
  let (neg, cs₁) :=
    match cs with
    | '-' :: r => (true, r)
    | _ => (false, cs)
  let (ip, cs₂) := takeDigits cs₁
  if ip.isEmpty then none
  else
    let base : Rat := (digitsToNat ip : Nat)
    let afterFrac : Option (Rat × Str) :=
      match cs₂ with
      | '.' :: r =>
        let (fd, r₂) := takeDigits r
        if fd.isEmpty then none
        else some (base + (digitsToNat fd : Rat) / ((10 : Rat) ^ fd.length), r₂)
      | _ => some (base, cs₂)
    match afterFrac with
    | none => none
    | some (v, cs₃) =>
      match cs₃ with
      | 'e' :: r =>
        (parseExp v r).map fun (v₂, r₂) => (if neg then -v₂ else v₂, r₂)
      | 'E' :: r =>
        (parseExp v r).map fun (v₂, r₂) => (if neg then -v₂ else v₂, r₂)
      | _ => some (if neg then -v else v, cs₃)

mutual

/-- One JSON value at the head of the input (leading whitespace allowed),
with the unconsumed remainder.  `fuel` bounds the recursion; every
recursive call consumes input, so `length + 1` fuel never runs out on a
parseable input. -/
def parseVal : Nat → Str → Option (Json × Str)
  | 0, _ => none
  | fuel + 1, cs =>
    match cs.dropWhile isWs with
    | 'n' :: 'u' :: 'l' :: 'l' :: rest => some (.null, rest)
    | 't' :: 'r' :: 'u' :: 'e' :: rest => some (.bool true, rest)
    | 'f' :: 'a' :: 'l' :: 's' :: 'e' :: rest => some (.bool false, rest)
    | '"' :: rest =>
      match parseStringBody rest with
      | some (s, r) => some (.str s, r)
      | none => none
    | '[' :: rest =>
      match rest.dropWhile isWs with
      | ']' :: r => some (.arr [], r)
      | _ =>
        match parseItems fuel rest with
        | some (vs, r) => some (.arr vs, r)
        | none => none
    | '{' :: rest =>
      match rest.dropWhile isWs with
      | '}' :: r => some (.obj [], r)
      | _ =>
        match parseFieldsList fuel rest with
        | some (fs, r) => some (.obj fs, r)
        | none => none
    | other =>
      match parseNumber other with
      | some (q, r) => some (.num q, r)
      | none => none

/-- Comma-separated array elements, positioned after `[` or a comma. -/
def parseItems : Nat → Str → Option (List Json × Str)
  | 0, _ => none
  | fuel + 1, cs =>
    match parseVal fuel cs with
    | none => none
    | some (v, rest) =>
      match rest.dropWhile isWs with
      | ',' :: r₂ =>
        match parseItems fuel r₂ with
        | some (vs, r₃) => some (v :: vs, r₃)
        | none => none
      | ']' :: r₂ => some ([v], r₂)
      | _ => none

/-- Comma-separated object members, positioned after `{` or a comma. -/
def parseFieldsList : Nat → Str → Option (List (Str × Json) × Str)
  | 0, _ => none
  | fuel + 1, cs =>
    match cs.dropWhile isWs with
    | '"' :: rest =>
      match parseStringBody rest with
      | none => none
      | some (k, r₁) =>
        match r₁.dropWhile isWs with
        | ':' :: r₂ =>
          match parseVal fuel r₂ with
          | none => none
          | some (v, r₃) =>
            match r₃.dropWhile isWs with
            | ',' :: r₄ =>
              match parseFieldsList fuel r₄ with
              | some (fs, r₅) => some ((k, v) :: fs, r₅)
              | none => none
            | '}' :: r₄ => some ([(k, v)], r₄)
            | _ => none
        | _ => none
    | _ => none

end

/-- JS `JSON.parse`: the whole input must be one JSON value followed only
by whitespace. -/
def jsonParse (cs : Str) : Option Json :=
  match parseVal (cs.length + 1) cs with
  | some (v, rest) => if (rest.dropWhile isWs).isEmpty then some v else none
  | none => none

/-- The JSON-recovery step of the games route (part_002 lines 560-568):
`result.trim()`, then the greedy regex `\x7b[\s\S]*\x7d` — the substring
from the first opening brace through the last closing brace after it —
falling back to the whole trimmed output when the regex does not match,
and failing (`throw`) when the output is empty. -/
def codeExtract (cs : Str) : Option Str :=
  let t := trimStr cs
  let afterBrace := t.dropWhile fun c => !(c == '{')
  let m := (afterBrace.reverse.dropWhile fun c => !(c == '}')).reverse
  if m.isEmpty then if t.isEmpty then none else some t
  else some m

/-- `JSON.parse` of the recovered substring as a prediction mapping
(part_002 lines 570-578).  A parse failure — or a top-level value that is
not an object, which carries no per-id predictions — is `none`; the
route's catch block then leaves every game at its default. -/
def parsePredictions (cs : Str) : Option (List (Str × Json)) :=
  match codeExtract cs with
  | none => none
  | some t =>
    match jsonParse t with
    | some (Json.obj fields) => some fields
    | _ => none

/-- JS truthiness of a JSON value (`NaN` cannot arise from `JSON.parse`). -/
def jsTruthy : Json → Bool
  | .null => false
  | .bool b => b
  | .num q => !(q == 0)
  | .str s => !s.isEmpty
  | .arr _ => true
  | .obj _ => true

/-- JS property access `j[key]` on a parsed JSON value: `undefined`
(`none`) unless `j` is an object with that key. -/
def getField (j : Json) (key : Str) : Option Json :=
  match j with
  | .obj fields => lookupTable fields key
  | _ => none

/-- Application of one parsed prediction to one game (part_002 lines
585-602): only an entry with truthy `success` and a numeric
`win_probability` updates the game, to `Math.round(win_probability)`;
anything else leaves the game untouched. -/
def applyPrediction (preds : List (Str × Json)) (game : Game) : Game :=
  match lookupTable preds game.id with
  | none => game
  | some p =>
    if (getField p (str "success")).elim false jsTruthy then
      match getField p (str "win_probability") with
      | some (Json.num q) =>
        { game with baseWinProb := ((round q : Int) : Rat),
                    currentWinProb := ((round q : Int) : Rat) }
      | _ => game
    else game

/-- The batch-prediction section of the games route (part_002 lines
483-664).  `scriptExists` models `fs.existsSync(batchPredictScript)`;
`captured` is the text recovered from the scorer's standard output (also
recovered on a failed or timed-out execution, lines 527-539).  Returns
the games and the number of scorer invocations: one `execSync` guarded by
`games.length > 0` and the script check, never one per game.  Every
failure path is caught inside the route (lines 619-660), so the phase is
total: the request never fails because of the scorer. -/
def runScorerPhase (scriptExists : Bool) (captured : Str)
    (games : List Game) : List Game × Nat :=
  if games.isEmpty then (games, 0)
  else if !scriptExists then (games, 0)
  else
    match parsePredictions captured with
    | none => (games, 1)
    | some preds => (games.map (applyPrediction preds), 1)

/-! ## Spec-modelled cache probe (claim C1) -/

/-- Value shape of the precomputed prediction artifact (spec §6):
`success` plus `winProbability`. -/
structure CacheEntry where
  success : Bool
  winProbability : Rat
  deriving DecidableEq, Repr

/-- Modelled from the spec: the cache-probe step of the prediction
resolver (spec §4.3 step 1, §6).  The deployed games route also loads the
precomputed `predictions.json` artifact and resolves every matchup id
found there with `success = true` before the scorer runs; the repository's
fix notes describe that route revision, but its source file is not among
the provided sources (the provided route revisions predate it).  A hit
with `success = true` resolves the matchup immediately to its cached
`winProbability`. -/
def cacheProbe (cache : List (Str × CacheEntry)) (g : Game) : Option Rat :=
  match lookupTable cache g.id with
  | some e => if e.success then some e.winProbability else none
  | none => none

/-- Modelled from the spec: one full batch-resolution call (spec §4.3) —
cache probe first; the external scorer invoked once for the cache-missing
remainder only (zero times when nothing remains or the script is absent);
ids the scorer does not resolve keep their neutral default.  Returns the
resolved games and the scorer invocation count. -/
def resolveBatch (cache : List (Str × CacheEntry)) (scriptExists : Bool)
    (captured : Str) (games : List Game) : List Game × Nat :=
  let misses := games.filter fun g => (cacheProbe cache g).isNone
  let invocations : Nat :=
    if misses.isEmpty then 0 else if scriptExists then 1 else 0
  let preds :=
    if invocations = 1 then parsePredictions captured else none
  let resolved := games.map fun g =>
    match cacheProbe cache g with
    | some p => { g with baseWinProb := p, currentWinProb := p }
    | none =>
      match preds with
      | some ps => applyPrediction ps g
      | none => g
  (resolved, invocations)

/-! ## Concrete instances used by witnesses and counterexamples -/

/-- A game with the given base probability and situational state, all
other inputs neutral (starter goalies, zero injuries). -/
def situGame (b : Rat) (hRest aRest : RestStatus) (hB2B aB2B : Bool) : Game :=
  { id := [], homeTeam := str "TOR", awayTeam := str "MTL", date := 0,
    time := str "19:00", homeGoalie := .starter, awayGoalie := .starter,
    isHomeBackToBack := hB2B, isAwayBackToBack := aB2B,
    homeRestDays := hRest, awayRestDays := aRest,
    homeInjuries := 0, awayInjuries := 0,
    homeInjuredPlayers := none, awayInjuredPlayers := none,
    baseWinProb := b, currentWinProb := b }

/-- A matchup with id `g1`, pending at the neutral default. -/
def c1game : Game := situGame 50 .fresh .fresh false false
  |> fun g => { g with id := str "g1" }

/-- A one-entry prediction cache: `g1` resolved with probability 63. -/
def c1cache : List (Str × CacheEntry) := [(str "g1", ⟨true, 63⟩)]

/-- Captured scorer output holding the well-formed JSON object
`\x7b"a": 1\x7d` followed by a stray closing brace. -/
def c8bad : Str := str "\x7b\"a\": 1\x7d \x7d"

/-- One future log row for the home team's perspective of a fixture. -/
def torHomeRow : LogEntry := ⟨str "TOR", 10, str "MTL", [], false⟩

/-- The game `convertToGameFormat` derives from `torHomeRow` when
Toronto's starting goalie is injured. -/
def c10game : Game :=
  { id := str "game-10-MTL-TOR", homeTeam := str "TOR", awayTeam := str "MTL",
    date := 10, time := str "19:00",
    homeGoalie := .backup, awayGoalie := .starter,
    isHomeBackToBack := false, isAwayBackToBack := false,
    homeRestDays := .fresh, awayRestDays := .fresh,
    homeInjuries := 0, awayInjuries := 0,
    homeInjuredPlayers := some [⟨str "Woll, Joseph", str "Out", [], []⟩],
    awayInjuredPlayers := none,
    baseWinProb := 50, currentWinProb := 50 }

/-- The mirrored row for the same fixture from the away team's log. -/
def mtlAwayRow : LogEntry := ⟨str "MTL", 10, str "TOR", str "@", false⟩

/-- Detailed injuries naming Toronto's starting goalie. -/
def wollInjury : List (Str × List InjuredPlayer) :=
  [(str "TOR", [⟨str "Woll, Joseph", str "Out", [], []⟩])]

/-! ## Helper lemmas -/

/-- `round` is monotone (used to push the clamp through the rounding). -/
theorem roundRatMono {x y : Rat} (h : x ≤ y) : round x ≤ round y := by
  rw [round_eq, round_eq]
  exact Int.floor_le_floor (by linarith)

/-! ## Claim theorems -/

/-- C3: for every `Game` input — any base probability, goalie tiers, rest
buckets, injury counts and back-to-back flags — the adjusted final win
probability produced by `calculateWinProb` lies in `[5, 95]`; it is an
integer by construction (the model's return type is `ℤ`, reflecting
`Math.round`). -/
theorem C3_calculateWinProb_range (g : Game) :
    5 ≤ calculateWinProb g ∧ calculateWinProb g ≤ 95 := by
  unfold calculateWinProb
  refine ⟨?_, ?_⟩
  · have h5 := roundRatMono (le_max_left (5 : Rat)
      (min 95 (g.baseWinProb
        + goalieAdjustments g.homeGoalie - goalieAdjustments g.awayGoalie
        + restAdjustments g.homeRestDays - restAdjustments g.awayRestDays
        - (g.homeInjuries : Rat) * 3 + (g.awayInjuries : Rat) * 3
        + (if g.isHomeBackToBack then -2 else 0)
        + (if g.isAwayBackToBack then 2 else 0))))
    simpa using h5
  · have h95 := roundRatMono (max_le (by norm_num : (5 : Rat) ≤ 95)
      (min_le_left (95 : Rat) (g.baseWinProb
        + goalieAdjustments g.homeGoalie - goalieAdjustments g.awayGoalie
        + restAdjustments g.homeRestDays - restAdjustments g.awayRestDays
        - (g.homeInjuries : Rat) * 3 + (g.awayInjuries : Rat) * 3
        + (if g.isHomeBackToBack then -2 else 0)
        + (if g.isAwayBackToBack then 2 else 0))))
    simpa using h95

/-- C5: whenever the log holds an entry for the team dated exactly one
calendar day before the target date with a result present (a played game),
`calculateRestDays` classifies the team as back-to-back, regardless of the
trailing 6-day played-game count. -/
theorem C5_backToBack_precedence (data : List LogEntry) (team : Str) (d : Int)
    (h : ∃ e ∈ data, e.team = team ∧ e.date = d - 1 ∧ e.result = true) :
    calculateRestDays data team d = .backToBack := by
  have hb : isBackToBack data team d = true := by
    rcases h with ⟨e, he, ht, hd, hr⟩
    unfold isBackToBack
    rw [List.any_eq_true]
    exact ⟨e, he, by simp [ht, hd, hr]⟩
  unfold calculateRestDays
  simp [hb]

/-- Witness for C5: the log `[(team TOR, date 2025-11-10 = day 20402,
played)]` with target date 2025-11-11 (day 20403) classifies TOR as
back-to-back. -/
theorem C5_backToBack_precedence_witness :
    calculateRestDays [⟨str "TOR", 20402, str "MTL", [], true⟩]
      (str "TOR") 20403 = .backToBack :=
  C5_backToBack_precedence _ _ _
    ⟨⟨str "TOR", 20402, str "MTL", [], true⟩, List.mem_singleton.mpr rfl,
      rfl, by decide, rfl⟩

/-- Evaluation of `calculateWinProb` on a `situGame`: the goalie and
injury contributions are neutral, leaving base, rest deltas and the extra
back-to-back deltas. -/
theorem calcWinProb_situ (q : Rat) (hR aR : RestStatus) (hB aB : Bool) :
    calculateWinProb (situGame q hR aR hB aB) =
      round (max 5 (min 95 (q + restAdjustments hR - restAdjustments aR
        + (if hB then (-2 : Rat) else 0) + (if aB then (2 : Rat) else 0)))) := by
  simp [calculateWinProb, situGame, goalieAdjustments]

/-- An unclamped integer value passes through clamp and round unchanged. -/
theorem round_clamp_intCast (n : Int) (h5 : 5 ≤ n) (h95 : n ≤ 95) :
    round (max 5 (min 95 (n : Rat))) = n := by
  rw [min_eq_right (by exact_mod_cast h95 : (n : Rat) ≤ 95),
    max_eq_right (by exact_mod_cast h5 : (5 : Rat) ≤ (n : Rat))]
  exact round_intCast n

/-- C6 counterexample: with base 50 and all other inputs neutral, switching
the home team from fresh (flag false) to back-to-back (flag true) moves the
final probability from 50 to 43, a change of -7, not -5: the -5 rest-tier
delta is compounded by the route's additional -2 back-to-back delta. -/
theorem C6_counterexample :
    ¬ (calculateWinProb (situGame 50 .backToBack .fresh true false)
        - calculateWinProb (situGame 50 .fresh .fresh false false) = -5) := by
  have h1 : calculateWinProb (situGame 50 .backToBack .fresh true false)
      = 43 := by
    rw [calcWinProb_situ]
    have hval : (50 : Rat) + restAdjustments .backToBack
        - restAdjustments .fresh + (if (true : Bool) then (-2 : Rat) else 0)
        + (if (false : Bool) then (2 : Rat) else 0) = ((43 : Int) : Rat) := by
      norm_num [restAdjustments]
    rw [hval, round_clamp_intCast 43 (by norm_num) (by norm_num)]
  have h2 : calculateWinProb (situGame 50 .fresh .fresh false false) = 50 := by
    rw [calcWinProb_situ]
    have hval : (50 : Rat) + restAdjustments .fresh
        - restAdjustments .fresh + (if (false : Bool) then (-2 : Rat) else 0)
        + (if (false : Bool) then (2 : Rat) else 0) = ((50 : Int) : Rat) := by
      norm_num [restAdjustments]
    rw [hval, round_clamp_intCast 50 (by norm_num) (by norm_num)]
  rw [h1, h2]
  decide

/-- C6 amended: holding an integer base probability `b` with
`12 ≤ b ≤ 88` (so the clamp stays inactive) and all other inputs neutral,
switching the home team from fresh to back-to-back (rest bucket plus flag)
changes the final probability by exactly -7 — the -5 rest-tier delta plus
the additional -2 back-to-back delta — and the symmetric away-side switch
contributes exactly +7. -/
theorem C6_rest_b2b_delta (b : Int) (h12 : 12 ≤ b) (h88 : b ≤ 88) :
    calculateWinProb (situGame (b : Rat) .backToBack .fresh true false)
        - calculateWinProb (situGame (b : Rat) .fresh .fresh false false) = -7
    ∧ calculateWinProb (situGame (b : Rat) .fresh .backToBack false true)
        - calculateWinProb (situGame (b : Rat) .fresh .fresh false false) = 7 := by
  have hfresh : calculateWinProb (situGame (b : Rat) .fresh .fresh false false)
      = b := by
    rw [calcWinProb_situ]
    have hval : (b : Rat) + restAdjustments .fresh - restAdjustments .fresh
        + (if (false : Bool) then (-2 : Rat) else 0)
        + (if (false : Bool) then (2 : Rat) else 0) = ((b : Int) : Rat) := by
      simp [restAdjustments]
    rw [hval, round_clamp_intCast b (by omega) (by omega)]
  have hhome : calculateWinProb (situGame (b : Rat) .backToBack .fresh true false)
      = b - 7 := by
    rw [calcWinProb_situ]
    have hval : (b : Rat) + restAdjustments .backToBack
        - restAdjustments .fresh + (if (true : Bool) then (-2 : Rat) else 0)
        + (if (false : Bool) then (2 : Rat) else 0)
        = ((b - 7 : Int) : Rat) := by
      simp [restAdjustments]
      ring
    rw [hval, round_clamp_intCast (b - 7) (by omega) (by omega)]
  have haway : calculateWinProb (situGame (b : Rat) .fresh .backToBack false true)
      = b + 7 := by
    rw [calcWinProb_situ]
    have hval : (b : Rat) + restAdjustments .fresh
        - restAdjustments .backToBack + (if (false : Bool) then (-2 : Rat) else 0)
        + (if (true : Bool) then (2 : Rat) else 0)
        = ((b + 7 : Int) : Rat) := by
      simp [restAdjustments]
      ring
    rw [hval, round_clamp_intCast (b + 7) (by omega) (by omega)]
  rw [hfresh, hhome, haway]
  omega

/-- Witness for C6 amended: at base 50 the home fresh→back-to-back switch
yields -7 and the away switch +7. -/
theorem C6_rest_b2b_delta_witness :
    calculateWinProb (situGame ((50 : Int) : Rat) .backToBack .fresh true false)
        - calculateWinProb (situGame ((50 : Int) : Rat) .fresh .fresh false false)
        = -7
    ∧ calculateWinProb (situGame ((50 : Int) : Rat) .fresh .backToBack false true)
        - calculateWinProb (situGame ((50 : Int) : Rat) .fresh .fresh false false)
        = 7 :=
  C6_rest_b2b_delta 50 (by decide) (by decide)

/-- C4: across one resolution call over a batch, the external scorer is
invoked at most once regardless of the number of matchups in the batch —
never once per matchup — and exactly zero times when the batch is empty. -/
theorem C4_scorer_invocations (scriptExists : Bool) (captured : Str)
    (games : List Game) :
    (runScorerPhase scriptExists captured games).2 ≤ 1
    ∧ (runScorerPhase scriptExists captured []).2 = 0 := by
  constructor
  · unfold runScorerPhase
    split
    · simp
    · split
      · simp
      · split <;> simp
  · rfl

/-- Every game produced by `convertToGameFormat` starts at the neutral
default base probability of 50 (part_002 lines 233-236). -/
theorem base50_of_mem_convert {data : List LogEntry} {team : Str}
    {ic : List (Str × Nat)} {di : List (Str × List InjuredPlayer)}
    {today : Int} {g : Game}
    (hg : g ∈ convertToGameFormat data team ic di today) :
    g.baseWinProb = 50 ∧ g.currentWinProb = 50 := by
  rw [convertToGameFormat, List.mem_filterMap] at hg
  rcases hg with ⟨e, -, heq⟩
  split at heq
  · exact Option.noConfusion heq
  split at heq
  · exact Option.noConfusion heq
  split at heq
  · exact Option.noConfusion heq
  split at heq
  · exact Option.noConfusion heq
  injection heq with heq
  subst heq
  exact ⟨rfl, rfl⟩

/-- C2: when the scorer script does not exist, or its captured output
yields no parseable predictions (process failure, timeout, malformed or
empty output), the batch-prediction phase returns the converted batch
unchanged — the call completes normally, no error reaching the caller —
and every matchup keeps the neutral base win probability of exactly 50.
(This route revision has no prediction cache, so every batch is
cache-missing.) -/
theorem C2_scorer_failure_neutral (data : List LogEntry) (team : Str)
    (ic : List (Str × Nat)) (di : List (Str × List InjuredPlayer))
    (today : Int) (scriptExists : Bool) (captured : Str)
    (hfail : scriptExists = false ∨ parsePredictions captured = none) :
    (runScorerPhase scriptExists captured
        (convertToGameFormat data team ic di today)).1
      = convertToGameFormat data team ic di today
    ∧ ∀ g ∈ (runScorerPhase scriptExists captured
          (convertToGameFormat data team ic di today)).1,
        g.baseWinProb = 50 := by
  have hsame : ∀ gs : List Game,
      (runScorerPhase scriptExists captured gs).1 = gs := by
    intro gs
    unfold runScorerPhase
    split
    · rfl
    · split
      · rfl
      · rcases hfail with h | h
        · subst h
          simp_all
        · rw [h]
  refine ⟨hsame _, ?_⟩
  rw [hsame]
  intro g hg
  exact (base50_of_mem_convert hg).1

/-- Witness for C2: a one-row future log yields a non-empty (one-game)
batch; with the scorer script absent, the batch is returned unchanged and
every game has base probability 50. -/
theorem C2_scorer_failure_neutral_witness :
    (convertToGameFormat [torHomeRow] (str "TOR") [] [] 0).length = 1
    ∧ ((runScorerPhase false (str "")
          (convertToGameFormat [torHomeRow] (str "TOR") [] [] 0)).1
        = convertToGameFormat [torHomeRow] (str "TOR") [] [] 0
      ∧ ∀ g ∈ (runScorerPhase false (str "")
            (convertToGameFormat [torHomeRow] (str "TOR") [] [] 0)).1,
          g.baseWinProb = 50) :=
  ⟨rfl, C2_scorer_failure_neutral [torHomeRow] (str "TOR") [] [] 0 false
    (str "") (Or.inl rfl)⟩

/-- C9 counterexample: with Toronto's roster (starter `woll`) and the
single injured name `Wo, Joseph`, the source returns `true` — its
starter-contains-player direction tests only the segment before the comma
(`wo`) — while the claimed two-way whole-name containment yields `false`,
so the claimed equivalence fails on this input. -/
theorem C9_counterexample :
    isStartingGoalieInjured [⟨str "Wo, Joseph", [], [], []⟩] (str "TOR")
        = true
    ∧ specStarterUnavailable STARTING_GOALIES
        [⟨str "Wo, Joseph", [], [], []⟩] (str "TOR") = false :=
  ⟨rfl, rfl⟩

/-- C9 amended: the starter-unavailable check returns true iff injuries
are recorded, the team's roster list is non-empty (its head being the
starter), and some injured player matches the starter by case-insensitive
containment — either the lowercased injured name contains the lowercased
starter name, or the lowercased starter name contains the injured name
truncated at its first comma, trimmed and lowercased; it returns false
whenever the team has no roster entry or no injuries are recorded. -/
theorem C9_starter_match_iff (roster : List (Str × List Str))
    (inj : List InjuredPlayer) (team : Str) :
    isStartingGoalieInjuredWith roster inj team = true ↔
      inj ≠ [] ∧ ∃ starter rest,
        (lookupTable roster team).getD [] = starter :: rest
        ∧ ∃ i ∈ inj,
          (containsSub (toLower i.player) (toLower starter) = true ∨
            containsSub (toLower starter)
              (toLower (trimStr (takeBeforeComma (toLower i.player))))
              = true) := by
  unfold isStartingGoalieInjuredWith
  split
  · rename_i hemp
    simp [List.isEmpty_iff.mp hemp]
  · rename_i hemp
    have hne : inj ≠ [] := by
      intro h
      exact hemp (by simp [h])
    rcases hgl : (lookupTable roster team).getD [] with - | ⟨starter, rest⟩
    · simp [hne]
    · dsimp only
      simp only [List.any_eq_true, Bool.or_eq_true]
      constructor
      · rintro ⟨i, hi, hmatch⟩
        exact ⟨hne, starter, rest, rfl, i, hi, hmatch⟩
      · rintro ⟨-, s, r, hsr, i, hi, hmatch⟩
        obtain ⟨rfl, rfl⟩ : starter = s ∧ rest = r := by
          injection hsr with h1 h2
          exact ⟨h1, h2⟩
        exact ⟨i, hi, hmatch⟩

/-- C10: every game produced by the conversion step carries a goalie tier
of either starter or backup on each side — the third-string tier (the one
carrying the -15 delta in `calculateWinProb`) is never assigned by the
pipeline for any injury input — and an injured starting goalie demotes
that side's tier to exactly backup. -/
theorem C10_goalie_tiers (data : List LogEntry) (team : Str)
    (ic : List (Str × Nat)) (di : List (Str × List InjuredPlayer))
    (today : Int) (g : Game)
    (hg : g ∈ convertToGameFormat data team ic di today) :
    (g.homeGoalie = .starter ∨ g.homeGoalie = .backup)
    ∧ (g.awayGoalie = .starter ∨ g.awayGoalie = .backup)
    ∧ (isStartingGoalieInjured ((lookupTable di g.homeTeam).getD [])
          g.homeTeam = true → g.homeGoalie = .backup)
    ∧ (isStartingGoalieInjured ((lookupTable di g.awayTeam).getD [])
          g.awayTeam = true → g.awayGoalie = .backup) := by
  rw [convertToGameFormat, List.mem_filterMap] at hg
  rcases hg with ⟨e, -, heq⟩
  split at heq
  · exact Option.noConfusion heq
  split at heq
  · exact Option.noConfusion heq
  split at heq
  · exact Option.noConfusion heq
  split at heq
  · exact Option.noConfusion heq
  injection heq with heq
  subst heq
  dsimp only
  have hcases : ∀ (c : Prop) (inst : Decidable c),
      (if c then GoalieType.backup else GoalieType.starter) = .starter
      ∨ (if c then GoalieType.backup else GoalieType.starter) = .backup := by
    intro c inst
    by_cases h : c
    · exact Or.inr (if_pos h)
    · exact Or.inl (if_neg h)
  refine ⟨hcases _ _, hcases _ _, ?_, ?_⟩
  · intro h
    rw [if_pos h]
  · intro h
    rw [if_pos h]

/-- Witness for C10: with Toronto's starter `woll` injured, the produced
game demotes the home goalie tier to backup; both tiers are in
starter/backup and the demotion implications hold at this input. -/
theorem C10_goalie_tiers_witness :
    (c10game.homeGoalie = .starter ∨ c10game.homeGoalie = .backup)
    ∧ (c10game.awayGoalie = .starter ∨ c10game.awayGoalie = .backup)
    ∧ (isStartingGoalieInjured ((lookupTable wollInjury c10game.homeTeam).getD [])
          c10game.homeTeam = true → c10game.homeGoalie = .backup)
    ∧ (isStartingGoalieInjured ((lookupTable wollInjury c10game.awayTeam).getD [])
          c10game.awayTeam = true → c10game.awayGoalie = .backup) :=
  C10_goalie_tiers [torHomeRow] (str "TOR") [] wollInjury 0 c10game
    (List.mem_singleton.mpr rfl)

/-- C1: for every batch, every matchup whose id the precomputed artifact
holds with `success = true` is resolved immediately to its cached
`winProbability` and is excluded from the scorer input, and a batch whose
ids are all cache-resolved triggers zero scorer invocations.  The cache
step is modelled from the spec (see `cacheProbe`). -/
theorem C1_cache_probe_resolution (cache : List (Str × CacheEntry))
    (scriptExists : Bool) (captured : Str) (games : List Game) :
    (∀ g ∈ games, ∀ e : CacheEntry, lookupTable cache g.id = some e →
        e.success = true →
        ({ g with baseWinProb := e.winProbability,
                  currentWinProb := e.winProbability }
            ∈ (resolveBatch cache scriptExists captured games).1
          ∧ g ∉ games.filter fun g₂ => (cacheProbe cache g₂).isNone))
    ∧ ((∀ g ∈ games, ∃ e : CacheEntry,
          lookupTable cache g.id = some e ∧ e.success = true) →
        (resolveBatch cache scriptExists captured games).2 = 0) := by
  constructor
  · intro g hg e he hs
    have hp : cacheProbe cache g = some e.winProbability := by
      unfold cacheProbe
      rw [he]
      exact if_pos hs
    constructor
    · unfold resolveBatch
      dsimp only
      refine List.mem_map.mpr ⟨g, hg, ?_⟩
      rw [hp]
    · intro hmem
      rw [List.mem_filter] at hmem
      rw [hp] at hmem
      simp at hmem
  · intro hall
    have hmisses : (games.filter fun g => (cacheProbe cache g).isNone) = [] := by
      rw [List.filter_eq_nil_iff]
      intro g hg
      rcases hall g hg with ⟨e, he, hs⟩
      have hp : cacheProbe cache g = some e.winProbability := by
        unfold cacheProbe
        rw [he]
        exact if_pos hs
      simp [hp]
    unfold resolveBatch
    dsimp only
    rw [hmisses]
    rfl

/-- Witness for C1: a cached entry `(g1, success, 63)` resolves the
one-game batch `[g1]` to base probability exactly 63 with zero scorer
invocations. -/
theorem C1_cache_probe_resolution_witness :
    ({ c1game with baseWinProb := 63, currentWinProb := 63 }
        ∈ (resolveBatch c1cache true (str "") [c1game]).1)
    ∧ (resolveBatch c1cache true (str "") [c1game]).2 = 0 := by
  have h := C1_cache_probe_resolution c1cache true (str "") [c1game]
  refine ⟨(h.1 c1game (List.mem_singleton.mpr rfl) ⟨true, 63⟩ rfl rfl).1, ?_⟩
  refine h.2 ?_
  intro g hg
  rw [List.mem_singleton] at hg
  subst hg
  exact ⟨⟨true, 63⟩, rfl, rfl⟩

/-- The id built by `convertToGameFormat` is the dedup key of the
resulting game prefixed with `game-`. -/
theorem id_eq_gameKey_of_mem_convert {data : List LogEntry} {team : Str}
    {ic : List (Str × Nat)} {di : List (Str × List InjuredPlayer)}
    {today : Int} {g : Game}
    (hg : g ∈ convertToGameFormat data team ic di today) :
    g.id = str "game-" ++ gameKey g := by
  rw [convertToGameFormat, List.mem_filterMap] at hg
  rcases hg with ⟨e, -, heq⟩
  split at heq
  · exact Option.noConfusion heq
  split at heq
  · exact Option.noConfusion heq
  split at heq
  · exact Option.noConfusion heq
  split at heq
  · exact Option.noConfusion heq
  injection heq with heq
  subst heq
  simp [gameKey, List.append_assoc]

/-- `insertGame` preserves the dedup invariant: the stored keys stay
pairwise distinct and every stored game's id is its key prefixed with
`game-`. -/
theorem insertGame_inv {m : List (Str × Game)} {g : Game}
    (hkeys : (m.map Prod.fst).Pairwise fun a b => a ≠ b)
    (hvals : ∀ p ∈ m, p.2.id = str "game-" ++ p.1)
    (hid : g.id = str "game-" ++ gameKey g) :
    (((insertGame m g).map Prod.fst).Pairwise fun a b => a ≠ b)
    ∧ ∀ p ∈ insertGame m g, p.2.id = str "game-" ++ p.1 := by
  unfold insertGame
  split
  · exact ⟨hkeys, hvals⟩
  · rename_i hnone
    constructor
    · rw [List.map_append, List.pairwise_append]
      refine ⟨hkeys, by simp, ?_⟩
      intro a ha b hb
      simp only [List.map_cons, List.map_nil, List.mem_singleton] at hb
      subst hb
      rw [List.mem_map] at ha
      rcases ha with ⟨p, hp, rfl⟩
      intro hcontra
      apply hnone
      have hex : (m.find? fun q => q.1 == gameKey g).isSome = true :=
        List.find?_isSome.mpr ⟨p, hp, by simp [hcontra]⟩
      obtain ⟨x, hx⟩ := Option.isSome_iff_exists.mp hex
      unfold lookupTable
      rw [hx]
      rfl
    · intro p hp
      rw [List.mem_append] at hp
      rcases hp with hp | hp
      · exact hvals p hp
      · rw [List.mem_singleton] at hp
        subst hp
        exact hid

/-- Folding a list of converted games through `insertGame` preserves the
dedup invariant. -/
theorem foldl_insertGame_inv (gs : List Game) :
    ∀ m : List (Str × Game),
      (∀ g ∈ gs, g.id = str "game-" ++ gameKey g) →
      ((m.map Prod.fst).Pairwise fun a b => a ≠ b) →
      (∀ p ∈ m, p.2.id = str "game-" ++ p.1) →
      (((gs.foldl insertGame m).map Prod.fst).Pairwise fun a b => a ≠ b)
      ∧ ∀ p ∈ gs.foldl insertGame m, p.2.id = str "game-" ++ p.1 := by
  induction gs with
  | nil =>
    intro m _ hkeys hvals
    exact ⟨hkeys, hvals⟩
  | cons g gs ih =>
    intro m hgs hkeys hvals
    rw [List.foldl_cons]
    have h := insertGame_inv hkeys hvals (hgs g (List.mem_cons_self g gs))
    exact ih _ (fun g' h' => hgs g' (List.mem_cons_of_mem _ h')) h.1 h.2

/-- The per-team fold of the all-teams branch preserves the dedup
invariant. -/
theorem teamsFold_inv (data : List LogEntry) (ic : List (Str × Nat))
    (di : List (Str × List InjuredPlayer)) (today : Int) (ts : List Str) :
    ∀ m : List (Str × Game),
      ((m.map Prod.fst).Pairwise fun a b => a ≠ b) →
      (∀ p ∈ m, p.2.id = str "game-" ++ p.1) →
      (((ts.foldl (fun m t =>
            (convertToGameFormat data t ic di today).foldl insertGame m)
            m).map Prod.fst).Pairwise fun a b => a ≠ b)
      ∧ ∀ p ∈ ts.foldl (fun m t =>
            (convertToGameFormat data t ic di today).foldl insertGame m) m,
          p.2.id = str "game-" ++ p.1 := by
  induction ts with
  | nil =>
    intro m hkeys hvals
    exact ⟨hkeys, hvals⟩
  | cons t ts ih =>
    intro m hkeys hvals
    rw [List.foldl_cons]
    have h := foldl_insertGame_inv (convertToGameFormat data t ic di today) m
      (fun g hg => id_eq_gameKey_of_mem_convert hg) hkeys hvals
    exact ih _ h.1 h.2

/-- C7: the all-teams derivation never emits two matchups with the same
id (ids derived from `date + awayTeam + homeTeam` behind the dedup map),
and on a log holding exactly the two mirrored rows of one fixture — once
from the home team's log, once from the away team's — it produces exactly
one matchup record, not two. -/
theorem C7_matchup_id_unique (data : List LogEntry) (ic : List (Str × Nat))
    (di : List (Str × List InjuredPlayer)) (today : Int) :
    ((deriveAllGames data ic di today).Pairwise fun a b => a.id ≠ b.id)
    ∧ (deriveAllGames [torHomeRow, mtlAwayRow] [] [] 0).length = 1 := by
  constructor
  · unfold deriveAllGames
    dsimp only
    have h := teamsFold_inv data ic di today (collectTeams data) []
      (by simp) (by simp)
    rw [List.pairwise_map]
    refine List.Pairwise.imp_of_mem ?_ ((List.pairwise_map).mp h.1)
    intro p q hp hq hne heq
    rw [h.2 p hp, h.2 q hq] at heq
    exact hne (List.append_cancel_left heq)
  · rfl

/-- `dropWhile` over an append stops no later than the head of the second
part when that head falsifies the predicate. -/
theorem dropWhile_append_keep (p : Char → Bool) (l₁ l₂ : Str) (c : Char)
    (hc : l₂.head? = some c) (hpc : p c = false) :
    (l₁ ++ l₂).dropWhile p = l₁.dropWhile p ++ l₂ := by
  induction l₁ with
  | nil =>
    simp only [List.nil_append, List.dropWhile_nil]
    cases l₂ with
    | nil => simp at hc
    | cons a t =>
      obtain rfl : a = c := by simpa using hc
      rw [List.dropWhile_cons, if_neg (by simp [hpc])]
  | cons a l ih =>
    rw [List.cons_append, List.dropWhile_cons, List.dropWhile_cons]
    by_cases hpa : p a = true
    · rw [if_pos hpa, if_pos hpa, ih]
    · rw [if_neg hpa, if_neg hpa, List.cons_append]

/-- `dropWhile` swallows a first part that satisfies the predicate
throughout. -/
theorem dropWhile_append_all (p : Char → Bool) (l₁ l₂ : Str)
    (h : ∀ x ∈ l₁, p x = true) :
    (l₁ ++ l₂).dropWhile p = l₂.dropWhile p := by
  induction l₁ with
  | nil => rw [List.nil_append]
  | cons a l ih =>
    rw [List.cons_append, List.dropWhile_cons,
      if_pos (h a (List.mem_cons_self a l))]
    exact ih fun x hx => h x (List.mem_cons_of_mem _ hx)

/-- `dropWhile` keeps a list whose head falsifies the predicate. -/
theorem dropWhile_eq_self_of_head (p : Char → Bool) (l : Str) (c : Char)
    (hc : l.head? = some c) (hpc : p c = false) : l.dropWhile p = l := by
  cases l with
  | nil => rfl
  | cons a t =>
    obtain rfl : a = c := by simpa using hc
    rw [List.dropWhile_cons, if_neg (by simp [hpc])]

/-- Right-trimming an append strips nothing off a first part ending in a
non-stripped character. -/
theorem rightStrip_append (l post : Str) (d : Char)
    (hd : l.getLast? = some d) (hwd : isWs d = false) :
    ((l ++ post).reverse.dropWhile isWs).reverse
      = l ++ (post.reverse.dropWhile isWs).reverse := by
  rw [List.reverse_append]
  rw [dropWhile_append_keep isWs post.reverse l.reverse d
    (by rw [List.head?_reverse]; exact hd) hwd]
  rw [List.reverse_append, List.reverse_reverse]

/-- `trim` of `pre ++ obj ++ post` only strips inside `pre` and `post`
when `obj` starts and ends in non-whitespace. -/
theorem trim_decomp (pre obj post : Str) (c d : Char)
    (hhead : obj.head? = some c) (hwc : isWs c = false)
    (hlast : obj.getLast? = some d) (hwd : isWs d = false) :
    trimStr (pre ++ obj ++ post)
      = pre.dropWhile isWs ++ obj ++ (post.reverse.dropWhile isWs).reverse := by
  have hq : (obj ++ post).head? = some c := by
    cases obj with
    | nil => simp at hhead
    | cons a t => simpa using hhead
  unfold trimStr
  rw [List.append_assoc]
  rw [dropWhile_append_keep isWs pre (obj ++ post) c hq hwc]
  rw [← List.append_assoc]
  rw [rightStrip_append (pre.dropWhile isWs ++ obj) post d
    (by rw [List.getLast?_append, hlast]; rfl) hwd]

/-- The two greedy brace scans recover exactly the middle part when the
prefix holds no opening brace, the suffix no closing brace, and the middle
starts with `\x7b` and ends with `\x7d`. -/
theorem extract_mid (pre₁ obj post₁ : Str)
    (hpre : ∀ x ∈ pre₁, (!(x == '{')) = true)
    (hpost : ∀ x ∈ post₁, (!(x == '}')) = true)
    (hhead : obj.head? = some '{') (hlast : obj.getLast? = some '}') :
    ((((pre₁ ++ obj ++ post₁).dropWhile fun ch => !(ch == '{')).reverse.dropWhile
        fun ch => !(ch == '}')).reverse) = obj := by
  have hq : (obj ++ post₁).head? = some '{' := by
    cases obj with
    | nil => simp at hhead
    | cons a t => simpa using hhead
  rw [List.append_assoc]
  rw [dropWhile_append_all _ pre₁ (obj ++ post₁) hpre]
  rw [dropWhile_eq_self_of_head _ (obj ++ post₁) '{' hq (by simp)]
  rw [List.reverse_append]
  rw [dropWhile_append_all _ post₁.reverse obj.reverse
    (fun x hx => hpost x (List.mem_reverse.mp hx))]
  rw [dropWhile_eq_self_of_head _ obj.reverse '}'
    (by rw [List.head?_reverse]; exact hlast) (by simp)]
  exact List.reverse_reverse obj

/-- The route's JSON recovery on an output of the shape
`pre ++ obj ++ post` — no `\x7b` in the prefix, no `\x7d` in the suffix,
`obj` delimited by braces — extracts exactly `obj`. -/
theorem codeExtract_decomp (pre obj post : Str)
    (hpre : '{' ∉ pre) (hpost : '}' ∉ post)
    (hhead : obj.head? = some '{') (hlast : obj.getLast? = some '}') :
    codeExtract (pre ++ obj ++ post) = some obj := by
  have hobj_ne : obj ≠ [] := by
    intro h
    rw [h] at hhead
    exact Option.noConfusion hhead
  have hp1 : ∀ x ∈ pre.dropWhile isWs, (!(x == '{')) = true := by
    intro x hx
    have hxp : x ∈ pre := (List.dropWhile_sublist isWs).subset hx
    have hne : x ≠ '{' := fun h => hpre (h ▸ hxp)
    simp [hne]
  have hp2 : ∀ x ∈ (post.reverse.dropWhile isWs).reverse,
      (!(x == '}')) = true := by
    intro x hx
    have hx₁ : x ∈ post.reverse.dropWhile isWs := List.mem_reverse.mp hx
    have hxp : x ∈ post :=
      List.mem_reverse.mp ((List.dropWhile_sublist isWs).subset hx₁)
    have hne : x ≠ '}' := fun h => hpost (h ▸ hxp)
    simp [hne]
  simp only [codeExtract]
  rw [trim_decomp pre obj post '{' '}' hhead rfl hlast rfl]
  rw [extract_mid (pre.dropWhile isWs) obj
    ((post.reverse.dropWhile isWs).reverse) hp1 hp2 hhead hlast]
  rw [if_neg (by simp [List.isEmpty_iff, hobj_ne])]

/-- C8 amended: the resolver recovers the scorer's predictions by taking
the substring of the trimmed output from the first opening brace through
the last closing brace and parsing it as JSON.  When the captured output
is `pre ++ obj ++ post` with no opening brace in `pre`, no closing brace
in `post`, and `obj` a brace-delimited well-formed JSON object, the parsed
prediction mapping equals the one encoded by `obj`; but the resolver falls
back to defaults whenever that greedy substring fails to parse, even if a
smaller well-formed JSON object substring exists (see the
counterexample). -/
theorem C8_extract_parse (pre obj post : Str) (fields : List (Str × Json))
    (hpre : '{' ∉ pre) (hpost : '}' ∉ post)
    (hhead : obj.head? = some '{') (hlast : obj.getLast? = some '}')
    (hobj : jsonParse obj = some (Json.obj fields)) :
    parsePredictions (pre ++ obj ++ post) = some fields := by
  unfold parsePredictions
  rw [codeExtract_decomp pre obj post hpre hpost hhead hlast]
  dsimp only
  rw [hobj]

/-- Witness for C8 amended: diagnostic text around a JSON object is
stripped and the object's mapping recovered. -/
theorem C8_extract_parse_witness :
    parsePredictions (str "Model loaded. " ++ str "\x7b\"ok\": true\x7d"
        ++ str " done")
      = some [(str "ok", Json.bool true)] :=
  C8_extract_parse (str "Model loaded. ") (str "\x7b\"ok\": true\x7d")
    (str " done") [(str "ok", Json.bool true)]
    (by decide) (by decide) rfl rfl rfl

/-- C8 counterexample: the captured output `\x7b"a": 1\x7d \x7d` contains
the well-formed JSON object substring `\x7b"a": 1\x7d` surrounded only by
non-JSON text (a stray closing brace), yet the resolver gives up: the
greedy first-brace-to-last-brace extraction grabs the stray brace too and
the parse fails, so the claimed recovery of the largest well-formed JSON
object substring does not hold. -/
theorem C8_counterexample :
    (∃ pre obj post fields, c8bad = pre ++ obj ++ post
        ∧ jsonParse obj = some (Json.obj fields))
    ∧ parsePredictions c8bad = none :=
  ⟨⟨[], str "\x7b\"a\": 1\x7d", str " \x7d", [(str "a", Json.num 1)],
    rfl, rfl⟩, rfl⟩

end NHL
